import Mathlib

/-!
Shallow embedding of the resilience / flow-control core of the aPaaS
OpenAPI node client (src/index.ts): retry executor, credential store,
chunking batch aggregators, and the two pagination iterator loops.

Remote calls are modelled by explicit server-behaviour functions
(one response per request index); JavaScript optional / falsy fields are
modelled with Option and explicit truthiness helpers; the unbounded
while-loops are modelled with an explicit fuel argument, where a `none`
result means the loop was still running after `fuel` iterations.
-/

namespace Apaas

/-- JavaScript string fallback `a || b` for an optional string field:
both a missing field and the empty string are falsy and select `b`. -/
def jsOrStr : Option String → String → String
  | none, d => d
  | some s, d => if s = "" then d else s

/-! ## Retry executor (src/index.ts `isRetryableError`, `executeWithRetry`) -/

/-- The shape of a thrown JavaScript error as inspected by
`isRetryableError`: an optional `code` string (network errno), the
axios-error marker, and the HTTP status of the response when one was
received (`none` models `axiosError.response` being absent). -/
structure JsError where
  message : String
  code : Option String := none
  isAxiosError : Bool := false
  responseStatus : Option Nat := none
deriving DecidableEq

/-- Translation of `isRetryableError` (src/index.ts lines 39-63). -/
def isRetryableError (e : JsError) : Bool :=
  if e.code = some "ECONNRESET" ∨ e.code = some "ETIMEDOUT" ∨ e.code = some "ENOTFOUND" then
    true
  else if e.isAxiosError then
    match e.responseStatus with
    | none => true
    | some status => decide (500 ≤ status) || decide (status = 429)
  else false

/-- `RetryOptions` (src/index.ts lines 25-34): all fields optional. -/
structure RetryOptions where
  maxRetries : Option Nat := none
  initialDelay : Option Nat := none
  maxDelay : Option Nat := none
  backoffMultiplier : Option Nat := none
deriving DecidableEq

/-- The policy after `executeWithRetry` has applied its destructuring
defaults `{maxRetries = 3, initialDelay = 1000, maxDelay = 10000,
backoffMultiplier = 2}`. -/
structure RetryPolicy where
  maxRetries : Nat
  initialDelay : Nat
  maxDelay : Nat
  backoffMultiplier : Nat
deriving DecidableEq

/-- Default application in the destructuring at src/index.ts lines 74-79. -/
def resolveRetryOptions (o : RetryOptions) : RetryPolicy :=
  ⟨o.maxRetries.getD 3, o.initialDelay.getD 1000, o.maxDelay.getD 10000,
   o.backoffMultiplier.getD 2⟩

/-- Observable outcome of one `executeWithRetry` run: the value finally
returned or the error finally thrown, how many times `fn` was invoked,
and the list of backoff delays slept between consecutive attempts. -/
structure RetryRun (α : Type) where
  result : Except JsError α
  attemptsMade : Nat
  delays : List Nat

/-- The retry loop of `executeWithRetry` (src/index.ts lines 83-116).
`op n` is the outcome of attempt number `n` (0-based); `remaining` is
`maxRetries - attempt`, so `remaining = 0` is the final attempt, whose
failure is propagated without a retryability check (the `break` followed
by `throw lastError`). A retryable failure on a non-final attempt sleeps
`min (initialDelay * backoffMultiplier ^ attempt) maxDelay` and retries;
a non-retryable one is rethrown at once. -/
def retryGo (op : Nat → Except JsError α) (p : RetryPolicy) :
    Nat → Nat → RetryRun α
  | 0, attempt =>
    match op attempt with
    | .ok v => ⟨.ok v, attempt + 1, []⟩
    | .error e => ⟨.error e, attempt + 1, []⟩
  | r + 1, attempt =>
    match op attempt with
    | .ok v => ⟨.ok v, attempt + 1, []⟩
    | .error e =>
      if isRetryableError e then
        let d := min (p.initialDelay * p.backoffMultiplier ^ attempt) p.maxDelay
        let rest := retryGo op p r (attempt + 1)
        ⟨rest.result, rest.attemptsMade, d :: rest.delays⟩
      else ⟨.error e, attempt + 1, []⟩

/-- `executeWithRetry fn options`: resolve the option defaults and run the
attempt loop from attempt 0 with `maxRetries` retries remaining. -/
def executeWithRetry (op : Nat → Except JsError α) (o : RetryOptions) : RetryRun α :=
  let p := resolveRetryOptions o
  retryGo op p p.maxRetries 0

/-! ## Chunker (the slicing loops at src/index.ts lines 753-757, 908-912,
1068-1072, 1219-1222, 1376-1379) -/

/-- The chunking loop `for (let i = 0; i < items.length; i += size)
chunks.push(items.slice(i, i + size))`: chunk `i` is the slice
`[i*size, i*size + size)`, and for `size > 0` the loop body runs
`⌈items.length / size⌉ = (items.length + size - 1) / size` times. -/
def chunkList (size : Nat) (l : List α) : List (List α) :=
  (List.range ((l.length + size - 1) / size)).map
    (fun i => (l.drop (i * size)).take size)

/-! ## Credential store (src/index.ts `getAccessToken`, `ensureTokenValid`) -/

/-- The three client fields `ensureTokenValid` reads and writes:
`none` models a JavaScript `null`. -/
structure TokenState where
  disableTokenCache : Bool
  accessToken : Option String
  expireTime : Option Int
deriving DecidableEq

/-- JavaScript truthiness of `this.accessToken` (`null` and `''` falsy). -/
def strTruthy : Option String → Bool
  | none => false
  | some s => s ≠ ""

/-- JavaScript truthiness of `this.expireTime` (`null` and `0` falsy). -/
def intTruthy : Option Int → Bool
  | none => false
  | some e => e ≠ 0

/-- Outcome of one call of the token endpoint (`/auth/v1/appToken`):
either a non-success body (code other than "0") or a fresh token with
its absolute expiry instant in epoch milliseconds. -/
inductive TokenFetch where
  | fail (msg : String)
  | ok (token : String) (expireTime : Int)

/-- `getAccessToken` (src/index.ts lines 208-223): a non-success reply
throws; a success stores the new token and expiry. -/
def getAccessToken (st : TokenState) (f : TokenFetch) : Except String TokenState :=
  match f with
  | .fail m => .error ("获取 accessToken 失败: " ++ m)
  | .ok tok exp => .ok { st with accessToken := some tok, expireTime := some exp }

/-- `ensureTokenValid` (src/index.ts lines 228-246). The returned Bool
is true when `getAccessToken` was invoked (a network refresh happened).
`now` is `dayjs().valueOf()` in epoch milliseconds. -/
def ensureTokenValid (st : TokenState) (now : Int) (f : TokenFetch) :
    Except String (TokenState × Bool) :=
  if st.disableTokenCache then
    (getAccessToken st f).map (fun s => (s, true))
  else if ¬ strTruthy st.accessToken ∨ ¬ intTruthy st.expireTime then
    (getAccessToken st f).map (fun s => (s, true))
  else if now + 60 * 1000 > st.expireTime.getD 0 then
    (getAccessToken st f).map (fun s => (s, true))
  else .ok (st, false)

/-! ## Batch aggregators over record chunks
(`object.create.recordsWithIterator`, `object.update.recordsWithIterator`,
`object.delete.recordsWithIterator`, src/index.ts lines 733-825, 888-978,
1046-1137) -/

/-- A record passed to the create/update batch operations; the only field
the aggregation loop reads is `_id` (used as `record._id || 'unknown'`
when a whole chunk is marked failed). -/
structure Rec where
  _id : Option String := none
deriving DecidableEq

/-- A per-item outcome as found in `res.data.items` of a batch reply, and
also the shape of the synthesized all-failed entries: the loops inspect
only the `success` flag and carry `_id` and `error` through. -/
structure RespItem where
  _id : Option String := none
  success : Option Bool := none
  error : Option String := none
deriving DecidableEq

/-- The `data` envelope of a batch reply; `none` for `items` models both
a missing field and a non-array value (the code guards with
`res.data && Array.isArray(res.data.items)`). -/
structure RawBatchData where
  items : Option (List RespItem) := none
deriving DecidableEq

/-- Outcome of one chunk-level unit call (`object.create.records` /
`object.update.records` / `object.delete.records`): either the promise
rejected (network error, etc.) or a reply envelope came back. -/
inductive ChunkCall where
  | thrown (message : String)
  | reply (code : String) (msg : Option String) (data : Option RawBatchData)
deriving DecidableEq

/-- An all-failed entry `{_id: record._id || 'unknown', success: false,
error}` synthesized for every record of a failed chunk. -/
def failedEntry (rid : Option String) (err : String) : RespItem :=
  ⟨some (jsOrStr rid "unknown"), some false, some err⟩

/-- Per-chunk processing of `object.create.recordsWithIterator`
(src/index.ts lines 767-811): a thrown call or a non-"0" code marks the
whole chunk failed; per-item outcomes of a successful reply are split by
`item.success !== false` (strict comparison: an absent flag counts as a
success); a successful reply without an items array records nothing. -/
def createChunk (chunk : List Rec) (call : ChunkCall) : List RespItem × List RespItem :=
  match call with
  | .thrown m => ([], chunk.map (fun r => failedEntry r._id m))
  | .reply code msg data =>
    if code ≠ "0" then
      ([], chunk.map (fun r =>
        failedEntry r._id (jsOrStr msg ("Creation failed with code " ++ code))))
    else
      match data.bind (fun d => d.items) with
      | some items =>
        (items.filter (fun it => it.success != some false),
         items.filter (fun it => it.success == some false))
      | none => ([], [])

/-- Per-chunk processing of `object.update.recordsWithIterator`
(src/index.ts lines 922-964): identical to the create loop except that a
per-item outcome is a success only when `item.success` is truthy (an
absent flag counts as a failure). -/
def updateChunk (chunk : List Rec) (call : ChunkCall) : List RespItem × List RespItem :=
  match call with
  | .thrown m => ([], chunk.map (fun r => failedEntry r._id m))
  | .reply code msg data =>
    if code ≠ "0" then
      ([], chunk.map (fun r =>
        failedEntry r._id (jsOrStr msg ("Update failed with code " ++ code))))
    else
      match data.bind (fun d => d.items) with
      | some items =>
        (items.filter (fun it => it.success == some true),
         items.filter (fun it => !(it.success == some true)))
      | none => ([], [])

/-- Per-chunk processing of `object.delete.recordsWithIterator`
(src/index.ts lines 1082-1123): chunks carry plain id strings, the
synthesized failure uses the id directly, and per-item classification is
by truthiness of `item.success` like the update loop. -/
def deleteChunk (chunk : List String) (call : ChunkCall) : List RespItem × List RespItem :=
  match call with
  | .thrown m => ([], chunk.map (fun id => (⟨some id, some false, some m⟩ : RespItem)))
  | .reply code msg data =>
    if code ≠ "0" then
      ([], chunk.map (fun id => (⟨some id, some false,
        some (jsOrStr msg ("Delete failed with code " ++ code))⟩ : RespItem)))
    else
      match data.bind (fun d => d.items) with
      | some items =>
        (items.filter (fun it => it.success == some true),
         items.filter (fun it => !(it.success == some true)))
      | none => ([], [])

/-- The `for (const [index, chunk] of chunks.entries())` loop of the
create variant: accumulate the per-chunk success/failed lists in chunk
order; `server k` is the outcome of the unit call for chunk `k`. -/
def createChunksGo (server : Nat → ChunkCall) :
    List (List Rec) → Nat → List RespItem × List RespItem
  | [], _ => ([], [])
  | chunk :: rest, k =>
    let p := createChunk chunk (server k)
    let q := createChunksGo server rest (k + 1)
    (p.1 ++ q.1, p.2 ++ q.2)

/-- The chunk loop of the update variant. -/
def updateChunksGo (server : Nat → ChunkCall) :
    List (List Rec) → Nat → List RespItem × List RespItem
  | [], _ => ([], [])
  | chunk :: rest, k =>
    let p := updateChunk chunk (server k)
    let q := updateChunksGo server rest (k + 1)
    (p.1 ++ q.1, p.2 ++ q.2)

/-- The chunk loop of the delete variant. -/
def deleteChunksGo (server : Nat → ChunkCall) :
    List (List String) → Nat → List RespItem × List RespItem
  | [], _ => ([], [])
  | chunk :: rest, k =>
    let p := deleteChunk chunk (server k)
    let q := deleteChunksGo server rest (k + 1)
    (p.1 ++ q.1, p.2 ++ q.2)

/-- The `{ total, success, failed, successCount, failedCount }` result of
the three record-batch iterators. -/
structure BatchItemsResult where
  total : Nat
  success : List RespItem
  failed : List RespItem
  successCount : Nat
  failedCount : Nat
deriving DecidableEq

/-- `object.create.recordsWithIterator` (src/index.ts lines 733-825).
The input is `none` when the caller passed a missing or non-array
`records` value (immediate validation error). The second component of a
successful result counts the chunk-level unit calls issued (zero network
traffic for the empty-input short circuit). -/
def createRecordsWithIterator (records : Option (List Rec)) (limit : Nat)
    (server : Nat → ChunkCall) : Except String (BatchItemsResult × Nat) :=
  match records with
  | none => .error "参数 records 必须是一个数组"
  | some recs =>
    if recs.length = 0 then .ok (⟨0, [], [], 0, 0⟩, 0)
    else
      let chunks := chunkList limit recs
      let p := createChunksGo server chunks 0
      .ok (⟨recs.length, p.1, p.2, p.1.length, p.2.length⟩, chunks.length)

/-- `object.update.recordsWithIterator` (src/index.ts lines 888-978). -/
def updateRecordsWithIterator (records : Option (List Rec)) (limit : Nat)
    (server : Nat → ChunkCall) : Except String (BatchItemsResult × Nat) :=
  match records with
  | none => .error "参数 records 必须是一个数组"
  | some recs =>
    if recs.length = 0 then .ok (⟨0, [], [], 0, 0⟩, 0)
    else
      let chunks := chunkList limit recs
      let p := updateChunksGo server chunks 0
      .ok (⟨recs.length, p.1, p.2, p.1.length, p.2.length⟩, chunks.length)

/-- `object.delete.recordsWithIterator` (src/index.ts lines 1046-1137). -/
def deleteRecordsWithIterator (ids : Option (List String)) (limit : Nat)
    (server : Nat → ChunkCall) : Except String (BatchItemsResult × Nat) :=
  match ids with
  | none => .error "参数 ids 必须是一个数组"
  | some l =>
    if l.length = 0 then .ok (⟨0, [], [], 0, 0⟩, 0)
    else
      let chunks := chunkList limit l
      let p := deleteChunksGo server chunks 0
      .ok (⟨l.length, p.1, p.2, p.1.length, p.2.length⟩, chunks.length)

/-! ## Exchange batch aggregators
(`department.batchExchange`, `user.batchExchange`, src/index.ts lines
1194-1293 and 1350-1451) -/

/-- The `BatchResult<T>` interface (src/index.ts lines 9-20); a failed
entry is an `{id, error}` pair. -/
structure BatchResult (μ : Type) where
  success : List μ
  failed : List (String × String)
  successCount : Nat
  failedCount : Nat
  total : Nat
deriving DecidableEq

/-- The chunk loop shared verbatim by `department.batchExchange` and
`user.batchExchange`: each chunk's unit call (token refresh + POST +
business-code check, throwing as `JsError` on any failure) runs under
`executeWithRetry`; a final success appends the returned mappings, a
final failure appends one `{id, error.message}` entry per id of the
chunk. `server k n` is the outcome of attempt `n` for chunk `k`; the
last component counts all network attempts made. -/
def exchangeChunksGo (o : RetryOptions) (server : Nat → Nat → Except JsError (List μ)) :
    List (List String) → Nat → List μ × List (String × String) × Nat
  | [], _ => ([], [], 0)
  | chunk :: rest, k =>
    let run := executeWithRetry (server k) o
    let q := exchangeChunksGo o server rest (k + 1)
    match run.result with
    | .ok l => (l ++ q.1, q.2.1, run.attemptsMade + q.2.2)
    | .error e =>
      (q.1, chunk.map (fun id => (id, e.message)) ++ q.2.1, run.attemptsMade + q.2.2)

/-- `department.batchExchange` (src/index.ts lines 1194-1293): validate,
short-circuit the empty input, chunk by the fixed `chunkSize = 200`, and
aggregate. A missing `retryOptions` is the all-`none` `RetryOptions`
(both resolve to the same defaults inside `executeWithRetry`). -/
def departmentBatchExchange (department_ids : Option (List String))
    (retryOptions : RetryOptions) (server : Nat → Nat → Except JsError (List μ)) :
    Except String (BatchResult μ × Nat) :=
  match department_ids with
  | none => .error "参数 department_ids 必须是一个数组"
  | some ids =>
    if ids.length = 0 then .ok (⟨[], [], 0, 0, 0⟩, 0)
    else
      let chunks := chunkList 200 ids
      let p := exchangeChunksGo retryOptions server chunks 0
      .ok (⟨p.1, p.2.1, p.1.length, p.2.1.length, ids.length⟩, p.2.2)

/-- `user.batchExchange` (src/index.ts lines 1350-1451): identical to
`department.batchExchange` up to endpoint and validation message. -/
def userBatchExchange (user_ids : Option (List String))
    (retryOptions : RetryOptions) (server : Nat → Nat → Except JsError (List μ)) :
    Except String (BatchResult μ × Nat) :=
  match user_ids with
  | none => .error "参数 user_ids 必须是一个数组"
  | some ids =>
    if ids.length = 0 then .ok (⟨[], [], 0, 0, 0⟩, 0)
    else
      let chunks := chunkList 200 ids
      let p := exchangeChunksGo retryOptions server chunks 0
      .ok (⟨p.1, p.2.1, p.1.length, p.2.1.length, ids.length⟩, p.2.2)

/-! ## Offset/total pagination iterator
(`object.list` + `object.listWithIterator`, src/index.ts lines 296-451) -/

/-- The `data` part of a raw `/meta/objects/list` reply; page items are
opaque and modelled by Nat tags. -/
structure RawListData where
  items : Option (List Nat) := none
  total : Option Nat := none
deriving DecidableEq

/-- A raw reply envelope `{code, msg, data}`. -/
structure RawListReply where
  code : String
  msg : Option String := none
  data : Option RawListData := none
deriving DecidableEq

/-- Outcome of one `object.list` unit call: the POST either throws or
returns a reply envelope. -/
inductive ListCall where
  | thrown (message : String)
  | reply (r : RawListReply)
deriving DecidableEq

/-- The flattened result `object.list` hands back (src/index.ts lines
317-331): defaulted `items`/`total` and the derived
`has_more = offset + limit < total`. -/
structure FlatListRes where
  code : String
  items : List Nat
  total : Nat
  msg : Option String
  has_more : Bool
deriving DecidableEq

/-- `object.list` flattening (src/index.ts lines 296-332). -/
def objectList (offset limit : Nat) (r : RawListReply) : FlatListRes :=
  let items := (r.data.bind (fun d => d.items)).getD []
  let total := (r.data.bind (fun d => d.total)).getD 0
  let currentEnd := offset + limit
  ⟨r.code, items, total, r.msg, decide (currentEnd < total)⟩

/-- A `FailedPage` entry `{offset, limit, code, msg}`. -/
structure FailedPage where
  offset : Nat
  limit : Nat
  code : String
  msg : String
deriving DecidableEq

/-- The mutable loop state of `object.listWithIterator` (src/index.ts
lines 350-357); `page` counts completed loop bodies. -/
structure ObjListState where
  results : List Nat
  offset : Nat
  total : Nat
  hasMore : Bool
  page : Nat
  failed : List FailedPage
deriving DecidableEq

/-- The state before the first iteration. -/
def objListInit : ObjListState := ⟨[], 0, 0, true, 0, []⟩

/-- One body of the `while (hasMore)` loop of `object.listWithIterator`
(src/index.ts lines 361-429). A thrown fetch records a FailedPage with
code "1", advances the offset, and recomputes `hasMore` from `total`
(false while `total` is still 0); a non-"0" reply records a FailedPage
and advances the offset but leaves `hasMore` untouched; a successful
reply appends the items, overwrites `total`, takes `hasMore` from the
derived `has_more` flag, and advances the offset. -/
def objListStep (limit : Nat) (call : ListCall) (st : ObjListState) : ObjListState :=
  match call with
  | .thrown m =>
    let offset := st.offset + limit
    { st with
      failed := st.failed ++ [⟨st.offset, limit, "1", m⟩]
      offset := offset
      page := st.page + 1
      hasMore := if st.total = 0 then false else decide (offset < st.total) }
  | .reply r =>
    let res := objectList st.offset limit r
    if res.code ≠ "0" then
      { st with
        failed := st.failed ++
          [⟨st.offset, limit, res.code, jsOrStr res.msg ("Query failed with code " ++ res.code)⟩]
        offset := st.offset + limit
        page := st.page + 1 }
    else
      { st with
        page := st.page + 1
        results := st.results ++ res.items
        total := res.total
        hasMore := res.has_more
        offset := st.offset + limit }

/-- Fuel-bounded run of the `while (hasMore)` loop; `server k` is the
outcome of the k-th unit call, `none` means fuel ran out with the loop
still going. -/
def objListGo (limit : Nat) (server : Nat → ListCall) :
    Nat → Nat → ObjListState → Option ObjListState
  | 0, _, _ => none
  | fuel + 1, k, st =>
    if st.hasMore then objListGo limit server fuel (k + 1) (objListStep limit (server k) st)
    else some st

/-- `object.listWithIterator` from the initial state (the returned value
is the final loop state; the wrapper result `{code, msg, items, total,
failed?}` is read off it). -/
def objectListWithIterator (limit : Nat) (server : Nat → ListCall) (fuel : Nat) :
    Option ObjListState :=
  objListGo limit server fuel 0 objListInit

/-! ## Do-while pagination iterators
(`page.listWithIterator`, src/index.ts lines 1529-1573;
`global.options.listWithIterator`, lines 1853-1903;
`global.variables.listWithIterator`, lines 1972-2022 — the three loops
are textually identical up to endpoint) -/

/-- The `data` part of a raw `page.list` (or `global.*.list`) reply. -/
structure RawPageData where
  items : Option (List Nat) := none
  total : Option Nat := none
deriving DecidableEq

/-- A raw reply envelope of the unit list call. -/
structure RawPageReply where
  code : String
  msg : Option String := none
  data : Option RawPageData := none
deriving DecidableEq

/-- Outcome of one unit list call (the POST either throws or replies). -/
inductive PageCall where
  | thrown (message : String)
  | reply (r : RawPageReply)
deriving DecidableEq

/-- The mutable loop state `{results, offset, total, page}` of the
do-while iterators (these loops have no `hasMore` variable). -/
structure PageIterState where
  results : List Nat
  offset : Nat
  total : Nat
  page : Nat
deriving DecidableEq

/-- One body of the `do { ... }` loop: a thrown unit call or a non-"0"
code rejects the whole iteration (there is no try/catch around these
loops); otherwise append the items when present, set `total` from the
first page only, and advance the offset. -/
def pageIterStep (limit : Nat) (call : PageCall) (st : PageIterState) :
    Except String PageIterState :=
  match call with
  | .thrown m => .error m
  | .reply r =>
    if r.code ≠ "0" then .error (jsOrStr r.msg ("Fetch failed with code " ++ r.code))
    else
      let page := st.page + 1
      let results :=
        match r.data.bind (fun d => d.items) with
        | some its => st.results ++ its
        | none => st.results
      let total := if page = 1 then (r.data.bind (fun d => d.total)).getD 0 else st.total
      .ok ⟨results, st.offset + limit, total, page⟩

/-- Fuel-bounded run of `do { body } while (results.length < total)`:
the body runs first, then the loop repeats exactly while the
accumulated item count is below `total`. -/
def pageIterGo (limit : Nat) (server : Nat → PageCall) :
    Nat → Nat → PageIterState → Option (Except String PageIterState)
  | 0, _, _ => none
  | fuel + 1, k, st =>
    match pageIterStep limit (server k) st with
    | .error m => some (.error m)
    | .ok st' =>
      if st'.results.length < st'.total then pageIterGo limit server fuel (k + 1) st'
      else some (.ok st')

/-- `page.listWithIterator` from the initial state (the `{total, items}`
result is read off the final state). -/
def pageListWithIterator (limit : Nat) (server : Nat → PageCall) (fuel : Nat) :
    Option (Except String PageIterState) :=
  pageIterGo limit server fuel 0 ⟨[], 0, 0, 0⟩

/-- `global.options.listWithIterator`: the same loop as
`page.listWithIterator` over a different endpoint. -/
def globalOptionsListWithIterator (limit : Nat) (server : Nat → PageCall) (fuel : Nat) :
    Option (Except String PageIterState) :=
  pageListWithIterator limit server fuel

/-- `global.variables.listWithIterator`: the same loop again. -/
def globalVariablesListWithIterator (limit : Nat) (server : Nat → PageCall) (fuel : Nat) :
    Option (Except String PageIterState) :=
  pageListWithIterator limit server fuel

/-! ## Cursor/token pagination iterator
(`object.search.recordsWithIterator`, src/index.ts lines 553-618) -/

/-- The `data` part of a raw `records_query` reply. -/
structure RawSearchData where
  items : Option (List Nat) := none
  total : Option Nat := none
  next_page_token : Option String := none
deriving DecidableEq

/-- A raw reply envelope of `object.search.records`. -/
structure RawSearchReply where
  code : String
  msg : Option String := none
  data : Option RawSearchData := none
deriving DecidableEq

/-- Outcome of one `object.search.records` unit call. -/
inductive SearchCall where
  | thrown (message : String)
  | reply (r : RawSearchReply)
deriving DecidableEq

/-- The `page_token` field put into the merged request data (src/index.ts
lines 567-573): with `use_page_token` the token is always sent and the
first page sends the empty string (`nextPageToken || ''`); without it the
field is only set when a truthy token is held, so the first request
omits it (`none`). -/
def searchTokenSent (usePageToken : Bool) (nextPageToken : Option String) : Option String :=
  if usePageToken then some (jsOrStr nextPageToken "")
  else
    match nextPageToken with
    | none => none
    | some t => if t = "" then none else some t

/-- `hasMore = !!(nextPageToken && nextPageToken !== '' &&
nextPageToken !== 'null')` (src/index.ts line 603). -/
def searchHasMore : Option String → Bool
  | none => false
  | some t => decide (t ≠ "") && decide (t ≠ "null")

/-- The mutable loop state of `object.search.recordsWithIterator`. -/
structure SearchIterState where
  results : List Nat
  nextPageToken : Option String
  total : Nat
  page : Nat
  hasMore : Bool
deriving DecidableEq

/-- One body of the `while (hasMore)` loop: a thrown call or a non-"0"
code fails the whole iteration; a success appends the items, captures
`total` when present, stores the next token, and derives `hasMore`. -/
def searchIterStep (call : SearchCall) (st : SearchIterState) :
    Except String SearchIterState :=
  match call with
  | .thrown m => .error m
  | .reply r =>
    if r.code ≠ "0" then .error (jsOrStr r.msg ("Query failed with code " ++ r.code))
    else
      let results :=
        match r.data.bind (fun d => d.items) with
        | some its => st.results ++ its
        | none => st.results
      let total :=
        match r.data.bind (fun d => d.total) with
        | some t => t
        | none => st.total
      let nextPageToken := r.data.bind (fun d => d.next_page_token)
      .ok ⟨results, nextPageToken, total, st.page + 1, searchHasMore nextPageToken⟩

/-- Fuel-bounded run of the `while (hasMore)` loop; the condition is
checked before every unit call and `hasMore` starts true. -/
def searchIterGo (server : Nat → SearchCall) :
    Nat → Nat → SearchIterState → Option (Except String SearchIterState)
  | 0, _, _ => none
  | fuel + 1, k, st =>
    if st.hasMore then
      match searchIterStep (server k) st with
      | .error m => some (.error m)
      | .ok st' => searchIterGo server fuel (k + 1) st'
    else some (.ok st)

/-- The initial cursor-iterator state: no token held yet. -/
def searchIterInit : SearchIterState := ⟨[], none, 0, 0, true⟩

/-- `object.search.recordsWithIterator` from the initial state (the
`{total, items}` result is read off the final state). -/
def searchRecordsWithIterator (server : Nat → SearchCall) (fuel : Nat) :
    Option (Except String SearchIterState) :=
  searchIterGo server fuel 0 searchIterInit

/-! ## Outcome counting for the batch aggregation invariant -/

/-- How many per-item outcomes one chunk of a record-batch iterator
contributes: the whole chunk on a thrown call or non-"0" code, the
number of enumerated items on a successful reply (zero when the reply
has no items array). -/
def batchCallOutcomeCount (chunk : List ρ) (call : ChunkCall) : Nat :=
  match call with
  | .thrown _ => chunk.length
  | .reply code _ data =>
    if code ≠ "0" then chunk.length
    else ((data.bind (fun d => d.items)).getD []).length

/-- How many entries one chunk of an exchange batch contributes: the
number of returned mappings on a final success, the whole chunk on a
final failure of `executeWithRetry`. -/
def exchangeOutcomeCount (o : RetryOptions) (chunk : List String)
    (fn : Nat → Except JsError (List μ)) : Nat :=
  match (executeWithRetry fn o).result with
  | .ok l => l.length
  | .error _ => chunk.length

/-- Sum of a per-chunk count over the indexed chunk list. -/
def chunkCountsGo (count : List ρ → χ → Nat) (server : Nat → χ) :
    List (List ρ) → Nat → Nat
  | [], _ => 0
  | c :: rest, k => count c (server k) + chunkCountsGo count server rest (k + 1)

/-! ## Concrete behaviours used in counterexamples and witnesses -/

/-- A server whose batch reply succeeds (code "0") but enumerates no
per-item outcomes (`data.items = []`). -/
def itemsEmptyChunkServer : Nat → ChunkCall :=
  fun _ => ChunkCall.reply "0" none (some ⟨some []⟩)

/-- A server whose batch reply enumerates exactly one successful item. -/
def enumChunkServer : Nat → ChunkCall :=
  fun _ => ChunkCall.reply "0" none (some ⟨some [⟨some "a", some true, none⟩]⟩)

/-- A distinct transient (retryable) error per attempt index. -/
def transientErrAt (n : Nat) : JsError :=
  ⟨Nat.repr n, some "ECONNRESET", false, none⟩

/-- An axios error with a 404 response: not retryable. -/
def err404 : JsError := ⟨"not found", none, true, some 404⟩

/-- An axios error with a 503 response: retryable. -/
def err503 : JsError := ⟨"upstream down", none, true, some 503⟩

/-- An `object.list` server that always answers with a non-success
business code and never throws. -/
def badListServer : Nat → ListCall :=
  fun _ => ListCall.reply ⟨"1", some "boom", none⟩

/-- An `object.list` server with one item and `total = 1`. -/
def okListServer : Nat → ListCall :=
  fun _ => ListCall.reply ⟨"0", none, some ⟨some [7], some 1⟩⟩

/-- A page server that always succeeds with `total = 10` but returns an
empty items array on every page. -/
def emptyPageServer : Nat → PageCall :=
  fun _ => PageCall.reply ⟨"0", none, some ⟨some [], some 10⟩⟩

/-- A page server with one item and `total = 1`. -/
def okPageServer : Nat → PageCall :=
  fun _ => PageCall.reply ⟨"0", none, some ⟨some [7], some 1⟩⟩

/-- A cursor server: page 1 carries item 1 and token "abc", page 2
carries item 2 and the empty token, nothing else is ever reached. -/
def twoPageSearchServer : Nat → SearchCall :=
  fun k =>
    if k = 0 then SearchCall.reply ⟨"0", none, some ⟨some [1], some 2, some "abc"⟩⟩
    else if k = 1 then SearchCall.reply ⟨"0", none, some ⟨some [2], none, some ""⟩⟩
    else SearchCall.thrown "unreachable"

/-- A held, far-from-expiry credential (cache enabled). -/
def cachedTokenState : TokenState := ⟨false, some "tok", some 10000000⟩

/-- An exchange server that returns exactly one mapping per call. -/
def exchangeOneServer : Nat → Nat → Except JsError (List Nat) :=
  fun _ _ => Except.ok [5]

/-- An exchange server that succeeds with an empty mapping list. -/
def exchangeOkServer : Nat → Nat → Except JsError (List Nat) :=
  fun _ _ => Except.ok []

/-- An `object.list` server whose calls always throw. -/
def thrownListServer : Nat → ListCall :=
  fun _ => ListCall.thrown "netdown"

/-! ## Helper lemmas: ceiling division and the chunk slices -/

lemma ceil_div_shift (n c : Nat) (hc : 0 < c) (hn : 0 < n) :
    (n + c - 1) / c = (n - 1) / c + 1 := by
  have h : n + c - 1 = (n - 1) + c := by omega
  rw [h, Nat.add_div_right _ hc]

lemma ceil_div_mul_ge (n c : Nat) (hc : 0 < c) (hn : 0 < n) :
    n ≤ ((n + c - 1) / c) * c := by
  rw [ceil_div_shift n c hc hn, Nat.succ_mul]
  have h1 : (n - 1) / c * c + (n - 1) % c = n - 1 := Nat.div_add_mod' (n - 1) c
  have h2 : (n - 1) % c < c := Nat.mod_lt _ hc
  generalize hX : (n - 1) / c * c = X at h1 ⊢
  omega

lemma ceil_div_pred_mul_lt (n c : Nat) (hc : 0 < c) (hn : 0 < n) :
    ((n + c - 1) / c - 1) * c < n := by
  rw [ceil_div_shift n c hc hn, Nat.add_sub_cancel]
  have h2 : (n - 1) / c * c ≤ n - 1 := Nat.div_mul_le_self _ _
  generalize hX : (n - 1) / c * c = X at h2 ⊢
  omega

lemma chunkList_length (size : Nat) (l : List α) :
    (chunkList size l).length = (l.length + size - 1) / size := by
  simp [chunkList]

lemma chunkList_nil (size : Nat) (hsize : 0 < size) :
    chunkList size ([] : List α) = [] := by
  have h : (size - 1) / size = 0 := Nat.div_eq_of_lt (by omega)
  simp [chunkList, h]

lemma chunkList_getD (size : Nat) (l : List α) (i : Nat)
    (h : i < (l.length + size - 1) / size) :
    (chunkList size l).getD i [] = (l.drop (i * size)).take size := by
  rw [chunkList, List.getD_eq_getElem?_getD, List.getElem?_map,
    List.getElem?_range h]
  rfl

lemma chunks_flatten (size : Nat) (hsize : 0 < size) :
    ∀ (m : Nat) (l : List α), l.length ≤ m * size →
      ((List.range m).map (fun i => (l.drop (i * size)).take size)).flatten = l := by
  intro m
  induction m with
  | zero =>
    intro l hl
    have : l = [] := List.length_eq_zero.mp (by omega)
    simp [this]
  | succ m ih =>
    intro l hl
    rw [List.range_succ_eq_map, List.map_cons, List.map_map, List.flatten_cons]
    have hmap : List.map ((fun i => (l.drop (i * size)).take size) ∘ Nat.succ)
        (List.range m) =
        List.map (fun i => ((l.drop size).drop (i * size)).take size) (List.range m) := by
      apply List.map_congr_left
      intro i _
      have : l.drop (Nat.succ i * size) = (l.drop size).drop (i * size) := by
        rw [List.drop_drop, Nat.succ_mul, Nat.add_comm]
      simp [Function.comp, this]
    rw [hmap, ih (l.drop size) (by
      have hexp : (m + 1) * size = m * size + size := Nat.succ_mul m size
      rw [List.length_drop]
      omega)]
    simp

lemma chunkList_flatten (size : Nat) (hsize : 0 < size) (l : List α) :
    (chunkList size l).flatten = l := by
  rcases Nat.eq_zero_or_pos l.length with h | h
  · have : l = [] := List.length_eq_zero.mp h
    subst this
    rw [chunkList_nil size hsize]
    rfl
  · exact chunks_flatten size hsize _ l (ceil_div_mul_ge l.length size hsize h)

lemma chunkList_sum_length (size : Nat) (hsize : 0 < size) (l : List α) :
    ((chunkList size l).map List.length).sum = l.length := by
  rw [← List.length_flatten, chunkList_flatten size hsize]

/-- Claim C7: for every non-empty input of length N and chunk size C > 0
the chunking loop produces exactly ceil(N/C) = (N + C - 1) / C chunks,
every chunk has size at most C and is non-empty, every chunk but the
last has exactly C elements, and the chunks concatenate back to the
original list. -/
theorem chunker_split_spec {α : Type} (l : List α) (size : Nat)
    (hsize : 0 < size) (hl : l ≠ []) :
    (chunkList size l).length = (l.length + size - 1) / size ∧
    (∀ ch ∈ chunkList size l, ch.length ≤ size ∧ ch ≠ []) ∧
    (∀ i, i + 1 < (chunkList size l).length →
      ((chunkList size l).getD i []).length = size) ∧
    (chunkList size l).flatten = l := by
  have hn : 0 < l.length := List.length_pos.mpr hl
  have hm := ceil_div_pred_mul_lt l.length size hsize hn
  refine ⟨chunkList_length size l, ?_, ?_, chunkList_flatten size hsize l⟩
  · intro ch hch
    rw [chunkList, List.mem_map] at hch
    obtain ⟨i, hi, rfl⟩ := hch
    rw [List.mem_range] at hi
    constructor
    · rw [List.length_take]
      exact min_le_left _ _
    · have hlt : i * size < l.length := by
        have h1 : i * size ≤ ((l.length + size - 1) / size - 1) * size :=
          Nat.mul_le_mul_right _ (by omega)
        omega
      intro hemp
      have := congrArg List.length hemp
      rw [List.length_take, List.length_drop] at this
      simp at this
      omega
  · intro i hi
    rw [chunkList_length] at hi
    rw [chunkList_getD size l i (by omega), List.length_take, List.length_drop]
    have h1 : (i + 1) * size ≤ ((l.length + size - 1) / size - 1) * size :=
      Nat.mul_le_mul_right _ (by omega)
    have h2 : (i + 1) * size = i * size + size := Nat.succ_mul i size
    generalize hX : i * size = X at h1 h2 ⊢
    generalize hY : ((l.length + size - 1) / size - 1) * size = Y at h1 hm
    omega

/-- Witness for C7 at the concrete input [1,2,3,4,5] with chunk size 2. -/
theorem chunker_split_spec_witness :
    (chunkList 2 [1, 2, 3, 4, 5]).length = (5 + 2 - 1) / 2 ∧
    (∀ ch ∈ chunkList 2 [1, 2, 3, 4, 5], ch.length ≤ 2 ∧ ch ≠ []) ∧
    (∀ i, i + 1 < (chunkList 2 [1, 2, 3, 4, 5]).length →
      ((chunkList 2 [1, 2, 3, 4, 5]).getD i []).length = 2) ∧
    (chunkList 2 [1, 2, 3, 4, 5]).flatten = [1, 2, 3, 4, 5] := by
  have h := chunker_split_spec [1, 2, 3, 4, 5] 2 (by decide) (by decide)
  simpa using h

/-! ## Helper lemmas: outcome counting in the batch aggregators -/

lemma length_filter_pair (l : List α) (p : α → Bool) :
    (l.filter p).length + (l.filter (fun a => !(p a))).length = l.length := by
  induction l with
  | nil => simp
  | cons a t ih =>
    cases h : p a <;> simp [List.filter_cons, h] <;> omega

lemma createChunk_count (chunk : List Rec) (call : ChunkCall) :
    (createChunk chunk call).1.length + (createChunk chunk call).2.length =
      batchCallOutcomeCount chunk call := by
  cases call with
  | thrown m => simp [createChunk, batchCallOutcomeCount]
  | reply code msg data =>
    by_cases h : code = "0"
    · subst h
      simp only [createChunk, batchCallOutcomeCount, ne_eq, not_true_eq_false, if_false, reduceIte]
      cases hd : data.bind (fun d => d.items) with
      | none => simp [hd]
      | some items =>
        have hneg : (fun it : RespItem => it.success == some false) =
            (fun it : RespItem => !(it.success != some false)) := by
          funext it
          simp [bne]
        simp only [hd, Option.getD_some]
        rw [hneg]
        exact length_filter_pair items _
    · simp [createChunk, batchCallOutcomeCount, h]

lemma updateChunk_count (chunk : List Rec) (call : ChunkCall) :
    (updateChunk chunk call).1.length + (updateChunk chunk call).2.length =
      batchCallOutcomeCount chunk call := by
  cases call with
  | thrown m => simp [updateChunk, batchCallOutcomeCount]
  | reply code msg data =>
    by_cases h : code = "0"
    · subst h
      simp only [updateChunk, batchCallOutcomeCount, ne_eq, not_true_eq_false, if_false, reduceIte]
      cases hd : data.bind (fun d => d.items) with
      | none => simp [hd]
      | some items =>
        simp only [hd, Option.getD_some]
        exact length_filter_pair items _
    · simp [updateChunk, batchCallOutcomeCount, h]

lemma deleteChunk_count (chunk : List String) (call : ChunkCall) :
    (deleteChunk chunk call).1.length + (deleteChunk chunk call).2.length =
      batchCallOutcomeCount chunk call := by
  cases call with
  | thrown m => simp [deleteChunk, batchCallOutcomeCount]
  | reply code msg data =>
    by_cases h : code = "0"
    · subst h
      simp only [deleteChunk, batchCallOutcomeCount, ne_eq, not_true_eq_false, if_false, reduceIte]
      cases hd : data.bind (fun d => d.items) with
      | none => simp [hd]
      | some items =>
        simp only [hd, Option.getD_some]
        exact length_filter_pair items _
    · simp [deleteChunk, batchCallOutcomeCount, h]

lemma createChunksGo_count (server : Nat → ChunkCall) :
    ∀ (chunks : List (List Rec)) (k : Nat),
      (createChunksGo server chunks k).1.length +
          (createChunksGo server chunks k).2.length =
        chunkCountsGo batchCallOutcomeCount server chunks k := by
  intro chunks
  induction chunks with
  | nil => intro k; simp [createChunksGo, chunkCountsGo]
  | cons c rest ih =>
    intro k
    have h1 := createChunk_count c (server k)
    have h2 := ih (k + 1)
    simp only [createChunksGo, chunkCountsGo, List.length_append]
    omega

lemma updateChunksGo_count (server : Nat → ChunkCall) :
    ∀ (chunks : List (List Rec)) (k : Nat),
      (updateChunksGo server chunks k).1.length +
          (updateChunksGo server chunks k).2.length =
        chunkCountsGo batchCallOutcomeCount server chunks k := by
  intro chunks
  induction chunks with
  | nil => intro k; simp [updateChunksGo, chunkCountsGo]
  | cons c rest ih =>
    intro k
    have h1 := updateChunk_count c (server k)
    have h2 := ih (k + 1)
    simp only [updateChunksGo, chunkCountsGo, List.length_append]
    omega

lemma deleteChunksGo_count (server : Nat → ChunkCall) :
    ∀ (chunks : List (List String)) (k : Nat),
      (deleteChunksGo server chunks k).1.length +
          (deleteChunksGo server chunks k).2.length =
        chunkCountsGo batchCallOutcomeCount server chunks k := by
  intro chunks
  induction chunks with
  | nil => intro k; simp [deleteChunksGo, chunkCountsGo]
  | cons c rest ih =>
    intro k
    have h1 := deleteChunk_count c (server k)
    have h2 := ih (k + 1)
    simp only [deleteChunksGo, chunkCountsGo, List.length_append]
    omega

lemma exchangeChunksGo_count {μ : Type} (o : RetryOptions)
    (server : Nat → Nat → Except JsError (List μ)) :
    ∀ (chunks : List (List String)) (k : Nat),
      (exchangeChunksGo o server chunks k).1.length +
          (exchangeChunksGo o server chunks k).2.1.length =
        chunkCountsGo (exchangeOutcomeCount o) server chunks k := by
  intro chunks
  induction chunks with
  | nil => intro k; simp [exchangeChunksGo, chunkCountsGo]
  | cons c rest ih =>
    intro k
    have h2 := ih (k + 1)
    simp only [exchangeChunksGo, chunkCountsGo, exchangeOutcomeCount]
    cases hres : (executeWithRetry (server k) o).result with
    | ok l => simp only [List.length_append]; omega
    | error e => simp only [List.length_append, List.length_map]; omega

lemma chunkCountsGo_of_enum (count : List ρ → χ → Nat) (server : Nat → χ) :
    ∀ (chunks : List (List ρ)) (k0 : Nat),
      (∀ j, j < chunks.length →
        count (chunks.getD j []) (server (k0 + j)) = (chunks.getD j []).length) →
      chunkCountsGo count server chunks k0 = (chunks.map List.length).sum := by
  intro chunks
  induction chunks with
  | nil => intro k0 _; simp [chunkCountsGo]
  | cons c rest ih =>
    intro k0 h
    have h0 := h 0 (by simp)
    simp only [List.getD_cons_zero, Nat.add_zero] at h0
    have hrest : ∀ j, j < rest.length →
        count (rest.getD j []) (server (k0 + 1 + j)) = (rest.getD j []).length := by
      intro j hj
      have := h (j + 1) (by simpa using Nat.succ_lt_succ hj)
      simpa [List.getD_cons_succ, Nat.add_assoc, Nat.add_comm 1 j] using this
    simp [chunkCountsGo, h0, ih (k0 + 1) hrest]

/-- Counterexample to claim C1 as stated: one record, chunk size 100, and
a server whose single chunk call succeeds (code "0") but enumerates an
empty per-item outcome list; the run returns successCount = 0 and
failedCount = 0 while total = 1, so successCount + failedCount differs
from total. -/
theorem batch_counts_counterexample :
    createRecordsWithIterator (some [⟨some "r"⟩]) 100 itemsEmptyChunkServer =
      .ok (⟨1, [], [], 0, 0⟩, 1) ∧ (0 + 0 : Nat) ≠ 1 := by
  exact ⟨rfl, by decide⟩

/-- Claim C1 (amended): in every batch aggregation run on a valid
non-empty input, `total` always equals the original unchunked input
length, and `successCount + failedCount` equals the sum over chunks of
the number of outcomes each chunk contributes (whole chunk on a thrown
call or non-success code, the number of enumerated per-item outcomes on
a successful reply); consequently `successCount + failedCount = total`
holds provided every successful chunk reply enumerates exactly one
outcome per submitted item (for the exchange operations: returns exactly
one mapping per submitted id). -/
theorem batch_counts_amended :
    (∀ (recs : List Rec) (limit : Nat) (server : Nat → ChunkCall),
      0 < limit → recs ≠ [] →
      match createRecordsWithIterator (some recs) limit server with
      | .ok (res, _) =>
          res.total = recs.length ∧
          res.successCount + res.failedCount =
            chunkCountsGo batchCallOutcomeCount server (chunkList limit recs) 0 ∧
          ((∀ j, j < (chunkList limit recs).length →
              batchCallOutcomeCount ((chunkList limit recs).getD j []) (server j) =
                ((chunkList limit recs).getD j []).length) →
            res.successCount + res.failedCount = res.total)
      | .error _ => False) ∧
    (∀ (recs : List Rec) (limit : Nat) (server : Nat → ChunkCall),
      0 < limit → recs ≠ [] →
      match updateRecordsWithIterator (some recs) limit server with
      | .ok (res, _) =>
          res.total = recs.length ∧
          res.successCount + res.failedCount =
            chunkCountsGo batchCallOutcomeCount server (chunkList limit recs) 0 ∧
          ((∀ j, j < (chunkList limit recs).length →
              batchCallOutcomeCount ((chunkList limit recs).getD j []) (server j) =
                ((chunkList limit recs).getD j []).length) →
            res.successCount + res.failedCount = res.total)
      | .error _ => False) ∧
    (∀ (ids : List String) (limit : Nat) (server : Nat → ChunkCall),
      0 < limit → ids ≠ [] →
      match deleteRecordsWithIterator (some ids) limit server with
      | .ok (res, _) =>
          res.total = ids.length ∧
          res.successCount + res.failedCount =
            chunkCountsGo batchCallOutcomeCount server (chunkList limit ids) 0 ∧
          ((∀ j, j < (chunkList limit ids).length →
              batchCallOutcomeCount ((chunkList limit ids).getD j []) (server j) =
                ((chunkList limit ids).getD j []).length) →
            res.successCount + res.failedCount = res.total)
      | .error _ => False) ∧
    (∀ (μ : Type) (ids : List String) (o : RetryOptions)
        (server : Nat → Nat → Except JsError (List μ)),
      ids ≠ [] →
      match departmentBatchExchange (some ids) o server with
      | .ok (res, _) =>
          res.total = ids.length ∧
          res.successCount + res.failedCount =
            chunkCountsGo (exchangeOutcomeCount o) server (chunkList 200 ids) 0 ∧
          ((∀ j, j < (chunkList 200 ids).length →
              exchangeOutcomeCount o ((chunkList 200 ids).getD j []) (server j) =
                ((chunkList 200 ids).getD j []).length) →
            res.successCount + res.failedCount = res.total)
      | .error _ => False) ∧
    (∀ (μ : Type) (ids : List String) (o : RetryOptions)
        (server : Nat → Nat → Except JsError (List μ)),
      ids ≠ [] →
      match userBatchExchange (some ids) o server with
      | .ok (res, _) =>
          res.total = ids.length ∧
          res.successCount + res.failedCount =
            chunkCountsGo (exchangeOutcomeCount o) server (chunkList 200 ids) 0 ∧
          ((∀ j, j < (chunkList 200 ids).length →
              exchangeOutcomeCount o ((chunkList 200 ids).getD j []) (server j) =
                ((chunkList 200 ids).getD j []).length) →
            res.successCount + res.failedCount = res.total)
      | .error _ => False) := by
  have henum : ∀ (ρ χ : Type) (count : List ρ → χ → Nat) (server : Nat → χ)
      (chunks : List (List ρ)),
      (∀ j, j < chunks.length →
        count (chunks.getD j []) (server j) = (chunks.getD j []).length) →
      chunkCountsGo count server chunks 0 = (chunks.map List.length).sum := by
    intro ρ χ count server chunks h
    exact chunkCountsGo_of_enum count server chunks 0 (by
      intro j hj
      simpa using h j hj)
  refine ⟨?_, ?_, ?_, ?_, ?_⟩
  · intro recs limit server hlim hne
    have hlen : ¬ recs.length = 0 := by simpa [List.length_eq_zero] using hne
    simp only [createRecordsWithIterator, if_neg hlen]
    refine ⟨trivial, createChunksGo_count server _ 0, ?_⟩
    intro h
    rw [createChunksGo_count server _ 0,
      henum _ _ _ _ _ h, chunkList_sum_length limit hlim recs]
  · intro recs limit server hlim hne
    have hlen : ¬ recs.length = 0 := by simpa [List.length_eq_zero] using hne
    simp only [updateRecordsWithIterator, if_neg hlen]
    refine ⟨trivial, updateChunksGo_count server _ 0, ?_⟩
    intro h
    rw [updateChunksGo_count server _ 0,
      henum _ _ _ _ _ h, chunkList_sum_length limit hlim recs]
  · intro ids limit server hlim hne
    have hlen : ¬ ids.length = 0 := by simpa [List.length_eq_zero] using hne
    simp only [deleteRecordsWithIterator, if_neg hlen]
    refine ⟨trivial, deleteChunksGo_count server _ 0, ?_⟩
    intro h
    rw [deleteChunksGo_count server _ 0,
      henum _ _ _ _ _ h, chunkList_sum_length limit hlim ids]
  · intro μ ids o server hne
    have hlen : ¬ ids.length = 0 := by simpa [List.length_eq_zero] using hne
    simp only [departmentBatchExchange, if_neg hlen]
    refine ⟨trivial, exchangeChunksGo_count o server _ 0, ?_⟩
    intro h
    rw [exchangeChunksGo_count o server _ 0,
      henum _ _ _ _ _ h, chunkList_sum_length 200 (by decide) ids]
  · intro μ ids o server hne
    have hlen : ¬ ids.length = 0 := by simpa [List.length_eq_zero] using hne
    simp only [userBatchExchange, if_neg hlen]
    refine ⟨trivial, exchangeChunksGo_count o server _ 0, ?_⟩
    intro h
    rw [exchangeChunksGo_count o server _ 0,
      henum _ _ _ _ _ h, chunkList_sum_length 200 (by decide) ids]

/-- Witness for the amended C1: a one-record create run against a server
that enumerates exactly one outcome per item, and a one-id department
exchange against a server that returns exactly one mapping; in both runs
successCount + failedCount = total. -/
theorem batch_counts_amended_witness :
    (match createRecordsWithIterator (some [⟨some "a"⟩]) 1 enumChunkServer with
     | .ok (res, _) => res.successCount + res.failedCount = res.total
     | .error _ => False) ∧
    (match departmentBatchExchange (some ["d1"]) {} exchangeOneServer with
     | .ok (res, _) => res.successCount + res.failedCount = res.total
     | .error _ => False) := by
  constructor
  · have h := batch_counts_amended.1 [⟨some "a"⟩] 1 enumChunkServer
      (by decide) (by decide)
    revert h
    cases hr : createRecordsWithIterator (some [⟨some "a"⟩]) 1 enumChunkServer with
    | ok p =>
      intro h
      exact h.2.2 (by decide)
    | error e => intro h; exact h
  · have h := (batch_counts_amended.2.2.2.1) Nat ["d1"] {} exchangeOneServer
      (by decide)
    revert h
    cases hr : departmentBatchExchange (some ["d1"]) {} exchangeOneServer with
    | ok p =>
      intro h
      exact h.2.2 (by decide)
    | error e => intro h; exact h

/-- Claim C9: every batch operation short-circuits an empty input array
to the exact zero result, issuing zero unit calls (hence no credential
refresh and no transport invocation), and rejects a missing or non-array
input with an immediate validation error, again with zero unit calls —
for every chunk limit and every server behaviour. -/
theorem batch_empty_and_invalid :
    (∀ (limit : Nat) (server : Nat → ChunkCall),
      createRecordsWithIterator (some []) limit server = .ok (⟨0, [], [], 0, 0⟩, 0) ∧
      createRecordsWithIterator none limit server = .error "参数 records 必须是一个数组" ∧
      updateRecordsWithIterator (some []) limit server = .ok (⟨0, [], [], 0, 0⟩, 0) ∧
      updateRecordsWithIterator none limit server = .error "参数 records 必须是一个数组" ∧
      deleteRecordsWithIterator (some []) limit server = .ok (⟨0, [], [], 0, 0⟩, 0) ∧
      deleteRecordsWithIterator none limit server = .error "参数 ids 必须是一个数组") ∧
    (∀ (o : RetryOptions) (server : Nat → Nat → Except JsError (List Nat)),
      departmentBatchExchange (some []) o server = .ok (⟨[], [], 0, 0, 0⟩, 0) ∧
      departmentBatchExchange none o server = .error "参数 department_ids 必须是一个数组" ∧
      userBatchExchange (some []) o server = .ok (⟨[], [], 0, 0, 0⟩, 0) ∧
      userBatchExchange none o server = .error "参数 user_ids 必须是一个数组") := by
  exact ⟨fun _ _ => ⟨rfl, rfl, rfl, rfl, rfl, rfl⟩, fun _ _ => ⟨rfl, rfl, rfl, rfl⟩⟩

/-- Witness for C9 at a concrete limit and concrete servers. -/
theorem batch_empty_and_invalid_witness :
    createRecordsWithIterator (some []) 100 itemsEmptyChunkServer =
      .ok (⟨0, [], [], 0, 0⟩, 0) ∧
    departmentBatchExchange none {} exchangeOkServer =
      .error "参数 department_ids 必须是一个数组" :=
  ⟨(batch_empty_and_invalid.1 100 itemsEmptyChunkServer).1,
   (batch_empty_and_invalid.2 {} exchangeOkServer).2.1⟩

/-- Claim C10: on a successful chunk reply the create loop counts an item
as a success whenever its success flag is not strictly false (an absent
flag is a success), while the update and delete loops count an item as a
success only when the flag is truthy (an absent flag is a failure); in
particular the item `{}` with no success field lands in the success list
of the create loop and in the failed list of the update and delete
loops. -/
theorem per_item_classification :
    (∀ it : RespItem,
      createChunk [] (.reply "0" none (some ⟨some [it]⟩)) =
        (if it.success = some false then ([], [it]) else ([it], [])) ∧
      updateChunk [] (.reply "0" none (some ⟨some [it]⟩)) =
        (if it.success = some true then ([it], []) else ([], [it])) ∧
      deleteChunk [] (.reply "0" none (some ⟨some [it]⟩)) =
        (if it.success = some true then ([it], []) else ([], [it]))) ∧
    createChunk [] (.reply "0" none (some ⟨some [⟨none, none, none⟩]⟩)) =
      ([⟨none, none, none⟩], []) ∧
    updateChunk [] (.reply "0" none (some ⟨some [⟨none, none, none⟩]⟩)) =
      ([], [⟨none, none, none⟩]) ∧
    deleteChunk [] (.reply "0" none (some ⟨some [⟨none, none, none⟩]⟩)) =
      ([], [⟨none, none, none⟩]) := by
  refine ⟨?_, by decide, by decide, by decide⟩
  intro it
  rcases hs : it.success with _ | b
  · refine ⟨?_, ?_, ?_⟩ <;>
      simp +decide [createChunk, updateChunk, deleteChunk, hs]
  · cases b <;>
      (refine ⟨?_, ?_, ?_⟩ <;>
        simp +decide [createChunk, updateChunk, deleteChunk, hs])

/-- Witness for C10 at a concrete item with an explicit success flag. -/
theorem per_item_classification_witness :
    createChunk [] (.reply "0" none (some ⟨some [⟨some "x", some false, none⟩]⟩)) =
      ([], [⟨some "x", some false, none⟩]) ∧
    updateChunk [] (.reply "0" none (some ⟨some [⟨some "x", some true, none⟩]⟩)) =
      ([⟨some "x", some true, none⟩], []) := by
  constructor
  · have h := (per_item_classification.1 ⟨some "x", some false, none⟩).1
    simpa using h
  · have h := (per_item_classification.1 ⟨some "x", some true, none⟩).2.1
    simpa using h

/-- Claim C2: under the default policy, an operation that fails with a
transient error on every attempt is tried exactly 4 times, the backoff
delays between consecutive attempts are 1000ms, 2000ms and 4000ms, and
the error finally propagated is the one observed on the last (fourth)
attempt. -/
theorem retry_default_exhaustion (errs : Nat → JsError)
    (h : ∀ n, isRetryableError (errs n) = true) :
    executeWithRetry (fun n => (.error (errs n) : Except JsError Nat)) {} =
      ⟨.error (errs 3), 4, [1000, 2000, 4000]⟩ := by
  simp [executeWithRetry, resolveRetryOptions, retryGo, h 0, h 1, h 2]

/-- Witness for C2: the concrete always-transient error family; the
propagated message "3" is the last attempt's. -/
theorem retry_default_exhaustion_witness :
    executeWithRetry (fun n => (.error (transientErrAt n) : Except JsError Nat)) {} =
      ⟨.error (transientErrAt 3), 4, [1000, 2000, 4000]⟩ :=
  retry_default_exhaustion transientErrAt (fun _ => rfl)

/-- Claim C4: on a non-final attempt (at least one retry remaining), a
failure classified retryable leads to another attempt after the computed
backoff delay, while any other failure is propagated immediately with no
further attempt and no delay; and a failure is classified retryable
exactly when its code is one of the three network errnos, or it is an
axios error with no response, a status of at least 500, or status 429. -/
theorem retry_classification :
    (∀ (α : Type) (p : RetryPolicy) (op : Nat → Except JsError α)
        (attempt r : Nat) (e : JsError), op attempt = .error e →
      (isRetryableError e = false →
        retryGo op p (r + 1) attempt = ⟨.error e, attempt + 1, []⟩) ∧
      (isRetryableError e = true →
        retryGo op p (r + 1) attempt =
          ⟨(retryGo op p r (attempt + 1)).result,
           (retryGo op p r (attempt + 1)).attemptsMade,
           min (p.initialDelay * p.backoffMultiplier ^ attempt) p.maxDelay ::
             (retryGo op p r (attempt + 1)).delays⟩)) ∧
    (∀ e : JsError, isRetryableError e = true ↔
      (e.code = some "ECONNRESET" ∨ e.code = some "ETIMEDOUT" ∨
        e.code = some "ENOTFOUND" ∨
        (e.isAxiosError = true ∧ (e.responseStatus = none ∨
          ∃ s, e.responseStatus = some s ∧ (500 ≤ s ∨ s = 429))))) := by
  constructor
  · intro α p op attempt r e hop
    constructor
    · intro hnr
      simp [retryGo, hop, hnr]
    · intro hretry
      simp [retryGo, hop, hretry]
  · intro e
    unfold isRetryableError
    by_cases hc : e.code = some "ECONNRESET" ∨ e.code = some "ETIMEDOUT" ∨
        e.code = some "ENOTFOUND"
    · simp only [if_pos hc]
      tauto
    · simp only [if_neg hc]
      cases hax : e.isAxiosError
      · simp only [Bool.false_eq_true, if_false]
        constructor
        · intro hfalse
          exact absurd hfalse (by simp)
        · intro hor
          rcases hor with h1 | h1 | h1 | ⟨h1, _⟩
          · exact absurd (Or.inl h1) hc
          · exact absurd (Or.inr (Or.inl h1)) hc
          · exact absurd (Or.inr (Or.inr h1)) hc
          · exact h1.elim
      · simp only [if_true]
        cases hrs : e.responseStatus with
        | none => simp [hc]
        | some s =>
          simp only [Bool.or_eq_true, decide_eq_true_eq]
          constructor
          · intro hor
            exact Or.inr (Or.inr (Or.inr ⟨trivial, Or.inr ⟨s, rfl, hor⟩⟩))
          · intro hor
            rcases hor with h1 | h1 | h1 | ⟨_, h2⟩
            · exact absurd (Or.inl h1) hc
            · exact absurd (Or.inr (Or.inl h1)) hc
            · exact absurd (Or.inr (Or.inr h1)) hc
            · rcases h2 with h3 | ⟨s2, h3, h4⟩
              · exact absurd h3 (by simp)
              · injection h3 with h5
                rw [h5]
                exact h4

/-- Witness for C4: a 404 axios error at attempt 0 with retries remaining
is propagated at once after exactly one attempt with no delay, and a 503
axios error is classified retryable. -/
theorem retry_classification_witness :
    retryGo (fun _ => (.error err404 : Except JsError Nat))
        (resolveRetryOptions {}) 3 0 = ⟨.error err404, 1, []⟩ ∧
    isRetryableError err503 = true := by
  constructor
  · have h := (retry_classification.1 Nat (resolveRetryOptions {})
      (fun _ => (.error err404 : Except JsError Nat)) 0 2 err404 rfl).1 (by rfl)
    exact h
  · exact (retry_classification.2 err503).mpr
      (Or.inr (Or.inr (Or.inr ⟨rfl, Or.inr ⟨503, rfl, Or.inl (by omega)⟩⟩)))

/-- Claim C5: `ensureTokenValid` refreshes the credential exactly when
the cache is disabled, or no (truthy) credential is held, or the held
expiry satisfies expireTime - now < 60000; otherwise it performs no
refresh and returns the state unchanged, whatever the token endpoint
would have answered. -/
theorem ensure_token_valid_refresh :
    ∀ (st : TokenState) (now : Int) (f : TokenFetch),
      (¬ (st.disableTokenCache = true ∨ strTruthy st.accessToken = false ∨
          intTruthy st.expireTime = false ∨ st.expireTime.getD 0 - now < 60000) →
        ensureTokenValid st now f = .ok (st, false)) ∧
      ((st.disableTokenCache = true ∨ strTruthy st.accessToken = false ∨
          intTruthy st.expireTime = false ∨ st.expireTime.getD 0 - now < 60000) →
        ensureTokenValid st now f = (getAccessToken st f).map (fun s => (s, true))) := by
  intro st now f
  constructor
  · intro h
    push_neg at h
    obtain ⟨h1, h2, h3, h4⟩ := h
    rw [ensureTokenValid, if_neg (by simp [h1]),
      if_neg (by simp [h2, h3]), if_neg (by omega)]
  · intro h
    rcases h with h1 | h1 | h1 | h1
    · rw [ensureTokenValid, if_pos h1]
    · by_cases hd : st.disableTokenCache = true
      · rw [ensureTokenValid, if_pos hd]
      · rw [ensureTokenValid, if_neg hd, if_pos (by simp [h1])]
    · by_cases hd : st.disableTokenCache = true
      · rw [ensureTokenValid, if_pos hd]
      · rw [ensureTokenValid, if_neg hd, if_pos (by simp [h1])]
    · by_cases hd : st.disableTokenCache = true
      · rw [ensureTokenValid, if_pos hd]
      · by_cases ht : ¬ strTruthy st.accessToken ∨ ¬ intTruthy st.expireTime
        · rw [ensureTokenValid, if_neg hd, if_pos ht]
        · rw [ensureTokenValid, if_neg hd, if_neg ht, if_pos (by omega)]

/-- Witness for C5: with caching enabled and a held credential expiring
10000000ms from epoch at now = 0, no refresh happens and the state is
returned unchanged even though the endpoint would have failed. -/
theorem ensure_token_valid_refresh_witness :
    ensureTokenValid cachedTokenState 0 (.fail "down") =
      .ok (cachedTokenState, false) :=
  (ensure_token_valid_refresh cachedTokenState 0 (.fail "down")).1 (by decide)

/-! ## Helper lemmas: the pagination loops stop only on their own
termination conditions -/

lemma searchIterGo_ok_hasMore (server : Nat → SearchCall) :
    ∀ (fuel k : Nat) (st st' : SearchIterState),
      searchIterGo server fuel k st = some (.ok st') → st'.hasMore = false := by
  intro fuel
  induction fuel with
  | zero => intro k st st' h; exact absurd h (by simp [searchIterGo])
  | succ n ih =>
    intro k st st' h
    rw [searchIterGo] at h
    by_cases hm : st.hasMore
    · rw [if_pos hm] at h
      cases hs : searchIterStep (server k) st with
      | error m => rw [hs] at h; exact absurd h (by simp)
      | ok st1 =>
        rw [hs] at h
        exact ih (k + 1) st1 st' h
    · rw [if_neg hm] at h
      have : st = st' := by
        have := Option.some.inj h
        exact Except.ok.inj this
      rw [← this]
      simpa using hm

/-- Claim C6: the cursor iterator sends no stale token on the first
request (the empty string in `use_page_token` mode, an omitted field
otherwise); after a page, `hasMore` is true exactly when the returned
next token is present, non-empty and not the literal "null"; a completed
iteration always ends with `hasMore = false`; and against a server whose
page 1 returns token "abc" and page 2 the empty token, exactly 2 pages
are fetched. -/
theorem cursor_pagination_spec :
    (searchTokenSent true none = some "" ∧ searchTokenSent false none = none) ∧
    (∀ t : Option String, searchHasMore t = true ↔
      ∃ s, t = some s ∧ s ≠ "" ∧ s ≠ "null") ∧
    (∀ (server : Nat → SearchCall) (fuel : Nat) (st : SearchIterState),
      searchRecordsWithIterator server fuel = some (.ok st) → st.hasMore = false) ∧
    searchRecordsWithIterator twoPageSearchServer 10 =
      some (.ok ⟨[1, 2], some "", 2, 2, false⟩) := by
  refine ⟨⟨rfl, rfl⟩, ?_, ?_, rfl⟩
  · intro t
    cases t with
    | none => simp [searchHasMore]
    | some s => simp [searchHasMore]
  · intro server fuel st h
    exact searchIterGo_ok_hasMore server fuel 0 searchIterInit st h

/-- Witness for C6: the two-page run ends with `hasMore = false` by the
general termination property applied to the concrete server. -/
theorem cursor_pagination_spec_witness :
    (⟨[1, 2], some "", 2, 2, false⟩ : SearchIterState).hasMore = false :=
  cursor_pagination_spec.2.2.1 twoPageSearchServer 10
    ⟨[1, 2], some "", 2, 2, false⟩ rfl

lemma objListStep_badListServer_hasMore (k : Nat) (st : ObjListState) :
    (objListStep 50 (badListServer k) st).hasMore = st.hasMore := by
  rfl

lemma objListGo_badListServer_none :
    ∀ (fuel k : Nat) (st : ObjListState), st.hasMore = true →
      objListGo 50 badListServer fuel k st = none := by
  intro fuel
  induction fuel with
  | zero => intro k st _; rfl
  | succ n ih =>
    intro k st hst
    rw [objListGo, if_pos hst]
    exact ih (k + 1) _ (by rw [objListStep_badListServer_hasMore]; exact hst)

/-- Counterexample to claim C3 as stated: a server that always answers
with the non-success code "1" while `total` is still unknown. The failed
fetch is recorded and the offset advances, but `hasMore` is left at true
and `total` at 0, and the iteration never terminates: the loop is still
running after every amount of fuel. -/
theorem failed_page_counterexample :
    (objListStep 50 (badListServer 0) objListInit).total = 0 ∧
    (objListStep 50 (badListServer 0) objListInit).hasMore = true ∧
    (objListStep 50 (badListServer 0) objListInit).failed =
      [⟨0, 50, "1", "boom"⟩] ∧
    ¬ (∃ fuel, (objectListWithIterator 50 badListServer fuel).isSome = true) := by
  refine ⟨rfl, rfl, rfl, ?_⟩
  rintro ⟨fuel, hf⟩
  rw [objectListWithIterator, objListGo_badListServer_none fuel 0 objListInit rfl] at hf
  simp at hf

/-- Claim C3 (amended): every failed page fetch records a FailedPage
entry `{offset, limit, code, msg}` and advances the offset by `limit`.
A thrown fetch recomputes `hasMore` (false when `total` is still
unknown, `offset + limit < total` otherwise), so a throw with `total`
unknown makes the loop terminate on the next check; a fetch that returns
a non-success code leaves `hasMore` (and `results` and `total`)
unchanged, so with `total` unknown the loop keeps issuing requests
rather than terminating. -/
theorem failed_page_handling :
    (∀ (limit : Nat) (st : ObjListState) (m : String),
      (objListStep limit (.thrown m) st).failed =
          st.failed ++ [⟨st.offset, limit, "1", m⟩] ∧
      (objListStep limit (.thrown m) st).offset = st.offset + limit ∧
      (objListStep limit (.thrown m) st).hasMore =
        (if st.total = 0 then false else decide (st.offset + limit < st.total))) ∧
    (∀ (limit : Nat) (st : ObjListState) (r : RawListReply), r.code ≠ "0" →
      (objListStep limit (.reply r) st).failed =
          st.failed ++ [⟨st.offset, limit, r.code,
            jsOrStr r.msg ("Query failed with code " ++ r.code)⟩] ∧
      (objListStep limit (.reply r) st).offset = st.offset + limit ∧
      (objListStep limit (.reply r) st).hasMore = st.hasMore ∧
      (objListStep limit (.reply r) st).results = st.results ∧
      (objListStep limit (.reply r) st).total = st.total) ∧
    (∀ (limit : Nat) (server : Nat → ListCall) (k fuel : Nat)
        (st : ObjListState) (m : String),
      st.hasMore = true → st.total = 0 → server k = .thrown m →
      objListGo limit server (fuel + 2) k st =
        some (objListStep limit (.thrown m) st)) := by
  refine ⟨?_, ?_, ?_⟩
  · intro limit st m
    exact ⟨rfl, rfl, rfl⟩
  · intro limit st r hr
    have hcode : (objectList st.offset limit r).code = r.code := rfl
    rw [objListStep]
    rw [if_pos (by rw [hcode]; exact hr)]
    exact ⟨rfl, rfl, rfl, rfl, rfl⟩
  · intro limit server k fuel st m hm ht hs
    rw [objListGo, if_pos hm, hs]
    have hstop : (objListStep limit (.thrown m) st).hasMore = false := by
      rw [objListStep]
      simp [ht]
    rw [objListGo, if_neg (by rw [hstop]; simp)]

/-- Witness for C3 (amended): a first fetch that throws while total is
unknown records the failed page, advances the offset, sets
`hasMore = false` and the loop returns right after it. -/
theorem failed_page_handling_witness :
    objListGo 50 thrownListServer 2 0 objListInit =
      some (objListStep 50 (.thrown "netdown") objListInit) ∧
    (objListStep 50 (.thrown "netdown") objListInit).failed =
      objListInit.failed ++ [⟨0, 50, "1", "netdown"⟩] := by
  constructor
  · exact failed_page_handling.2.2 50 thrownListServer 0 0 objListInit
      "netdown" rfl rfl rfl
  · exact (failed_page_handling.1 50 objListInit "netdown").1

lemma objListGo_some_hasMore (limit : Nat) (server : Nat → ListCall) :
    ∀ (fuel k : Nat) (st st' : ObjListState),
      objListGo limit server fuel k st = some st' → st'.hasMore = false := by
  intro fuel
  induction fuel with
  | zero => intro k st st' h; exact absurd h (by simp [objListGo])
  | succ n ih =>
    intro k st st' h
    rw [objListGo] at h
    by_cases hm : st.hasMore
    · rw [if_pos hm] at h
      exact ih (k + 1) _ st' h
    · rw [if_neg hm] at h
      have heq : st = st' := Option.some.inj h
      rw [← heq]
      simpa using hm

lemma pageIterGo_ok_total_le (limit : Nat) (server : Nat → PageCall) :
    ∀ (fuel k : Nat) (st st' : PageIterState),
      pageIterGo limit server fuel k st = some (.ok st') →
        st'.total ≤ st'.results.length := by
  intro fuel
  induction fuel with
  | zero => intro k st st' h; exact absurd h (by simp [pageIterGo])
  | succ n ih =>
    intro k st st' h
    rw [pageIterGo] at h
    cases hs : pageIterStep limit (server k) st with
    | error m => rw [hs] at h; exact absurd h (by simp)
    | ok st1 =>
      rw [hs] at h
      have h2 : (if st1.results.length < st1.total then
          pageIterGo limit server n (k + 1) st1
        else some (Except.ok st1)) = some (Except.ok st') := h
      by_cases hlt : st1.results.length < st1.total
      · rw [if_pos hlt] at h2
        exact ih (k + 1) st1 st' h2
      · rw [if_neg hlt] at h2
        have heq : st1 = st' := Except.ok.inj (Option.some.inj h2)
        rw [← heq]
        omega

lemma pageIterGo_emptyPageServer_none :
    ∀ (fuel k : Nat) (st : PageIterState),
      st.results = [] → (st.page = 0 ∨ st.total = 10) →
      pageIterGo 50 emptyPageServer fuel k st = none := by
  intro fuel
  induction fuel with
  | zero => intro k st _ _; rfl
  | succ n ih =>
    intro k st hres htot
    have htot' : (if st.page + 1 = 1 then 10 else st.total) = 10 := by
      rcases htot with h | h
      · simp [h]
      · by_cases hp : st.page + 1 = 1
        · simp [hp]
        · simp [hp, h]
    have hstep : pageIterStep 50 (emptyPageServer k) st =
        .ok ⟨st.results, st.offset + 50, if st.page + 1 = 1 then 10 else st.total,
          st.page + 1⟩ := by
      simp [pageIterStep, emptyPageServer]
    have hbody : pageIterGo 50 emptyPageServer (n + 1) k st =
        (if st.results.length < (if st.page + 1 = 1 then 10 else st.total) then
          pageIterGo 50 emptyPageServer n (k + 1)
            ⟨st.results, st.offset + 50,
              if st.page + 1 = 1 then 10 else st.total, st.page + 1⟩
        else some (.ok ⟨st.results, st.offset + 50,
            if st.page + 1 = 1 then 10 else st.total, st.page + 1⟩)) := by
      rw [pageIterGo, hstep]
    rw [hbody, htot', hres]
    rw [if_pos (by simp)]
    exact ih (k + 1) ⟨[], st.offset + 50, 10, st.page + 1⟩ rfl (Or.inr rfl)

/-- Counterexample to claim C8 as stated: `page.listWithIterator` (and
its textually identical global.options / global.variables twins) has no
`hasMore` flag and does not stop at `offset ≥ total`: against a server
that reports total = 10 but returns an empty items array, after page 1
the offset (50) already exceeds the total (10), yet the loop — whose
real condition is `results.length < total` — never terminates. -/
theorem pagination_termination_counterexample :
    pageIterStep 50 (emptyPageServer 0) ⟨[], 0, 0, 0⟩ = .ok ⟨[], 50, 10, 1⟩ ∧
    (⟨[], 50, 10, 1⟩ : PageIterState).total ≤ (⟨[], 50, 10, 1⟩ : PageIterState).offset ∧
    ¬ (∃ fuel, (pageListWithIterator 50 emptyPageServer fuel).isSome = true) := by
  refine ⟨rfl, by decide, ?_⟩
  rintro ⟨fuel, hf⟩
  rw [pageListWithIterator,
    pageIterGo_emptyPageServer_none fuel 0 ⟨[], 0, 0, 0⟩ rfl (Or.inl rfl)] at hf
  simp at hf

/-- Claim C8 (amended): `object.listWithIterator` terminates exactly when
`hasMore` is false (any returned final state has `hasMore = false`, and
the loop continues whenever it is true); the three do-while iterators
(`page.listWithIterator` and the two identical `global.*` loops)
terminate successfully exactly when the accumulated item count has
reached `total` — their loop condition — not on any `hasMore` flag or
offset comparison. -/
theorem pagination_termination_amended :
    (∀ (limit : Nat) (server : Nat → ListCall) (fuel : Nat) (st : ObjListState),
      objectListWithIterator limit server fuel = some st → st.hasMore = false) ∧
    (∀ (limit : Nat) (server : Nat → ListCall) (fuel k : Nat) (st : ObjListState),
      st.hasMore = true →
      objListGo limit server (fuel + 1) k st =
        objListGo limit server fuel (k + 1) (objListStep limit (server k) st)) ∧
    (∀ (limit : Nat) (server : Nat → PageCall) (fuel : Nat) (st : PageIterState),
      pageListWithIterator limit server fuel = some (.ok st) →
        st.total ≤ st.results.length) ∧
    (∀ (limit : Nat) (server : Nat → PageCall) (fuel k : Nat)
        (st st' : PageIterState),
      pageIterStep limit (server k) st = .ok st' →
      st'.results.length < st'.total →
      pageIterGo limit server (fuel + 1) k st =
        pageIterGo limit server fuel (k + 1) st') ∧
    (∀ (limit : Nat) (server : Nat → PageCall) (fuel : Nat),
      globalOptionsListWithIterator limit server fuel =
          pageListWithIterator limit server fuel ∧
      globalVariablesListWithIterator limit server fuel =
          pageListWithIterator limit server fuel) := by
  refine ⟨?_, ?_, ?_, ?_, ?_⟩
  · intro limit server fuel st h
    exact objListGo_some_hasMore limit server fuel 0 objListInit st h
  · intro limit server fuel k st hm
    rw [objListGo, if_pos hm]
  · intro limit server fuel st h
    exact pageIterGo_ok_total_le limit server fuel 0 ⟨[], 0, 0, 0⟩ st h
  · intro limit server fuel k st st' hs hlt
    have hbody : pageIterGo limit server (fuel + 1) k st =
        (if st'.results.length < st'.total then
          pageIterGo limit server fuel (k + 1) st'
        else some (.ok st')) := by
      rw [pageIterGo, hs]
    rw [hbody, if_pos hlt]
  · intro limit server fuel
    exact ⟨rfl, rfl⟩

/-- Witness for the amended C8: a one-page object run ends with
`hasMore = false`, and a one-page do-while run ends with the accumulated
count reaching the total. -/
theorem pagination_termination_amended_witness :
    (⟨[7], 50, 1, false, 1, []⟩ : ObjListState).hasMore = false ∧
    (⟨[7], 50, 1, 1⟩ : PageIterState).total ≤
      (⟨[7], 50, 1, 1⟩ : PageIterState).results.length := by
  constructor
  · exact pagination_termination_amended.1 50 okListServer 2
      ⟨[7], 50, 1, false, 1, []⟩ rfl
  · exact pagination_termination_amended.2.2.1 50 okPageServer 3
      ⟨[7], 50, 1, 1⟩ rfl

end Apaas







